import Mathlib

/-!
Verification of the grid-to-markup rendering engine of the `displayExcelTV`
backend (`src/main.py`) against its natural-language specification.

The Python code is shallowly embedded as executable Lean definitions:

* Calendar dates are modelled as proleptic-Gregorian ordinals (an `Int`,
  day 1 = January 1 of year 1), exactly the representation underlying
  Python's `datetime.date`.  Python's `date` type only represents ordinals
  1 .. 3652059 (year 1 .. year 9999); constructing or shifting a date
  outside that range raises (`ValueError` / `OverflowError`).  Fallible
  operations therefore return `Option`, `none` standing for a raised
  exception.
* `str` values are Lean `String`s; `dict`s are association lists in which a
  later binding shadows an earlier one; Python `%` on `int` agrees with
  Lean's `Int` `%` (euclidean remainder, result has the divisor's sign).
-/

/-! ## Decimal rendering of naturals (Python `str(int)` for non-negative values) -/

/-- The character for decimal digit `d` (`0 ≤ d ≤ 9`). -/
def digitChar (d : Nat) : Char := Char.ofNat (48 + d)

/-- Fuel-driven decimal digit expansion; `fuel > n` makes it total on `n`. -/
def natDigitsF : Nat → Nat → List Char
  | 0, _ => []
  | fuel + 1, n =>
    if n < 10 then [digitChar n]
    else natDigitsF fuel (n / 10) ++ [digitChar (n % 10)]

/-- Decimal digit list of `n`, most significant first (Python `str(n)`). -/
def natDigits (n : Nat) : List Char := natDigitsF (n + 1) n

/-- Decimal string of `n` (Python `str(n)` for a non-negative `int`). -/
def natRepr (n : Nat) : String := ⟨natDigits n⟩

/-! ## Calendar arithmetic (Python `datetime.date`, proleptic Gregorian) -/

/-- Number of days strictly before January 1 of year `y` (for `y ≥ 1`),
counted from the epoch ordinal 0; ordinal of a date = this + day-of-year. -/
def daysBeforeYear (y : Int) : Int :=
  365 * (y - 1) + (y - 1) / 4 - (y - 1) / 100 + (y - 1) / 400

/-- Ordinal of January 4 of year `y`: `date(y, 1, 4).toordinal()`. -/
def jan4Ordinal (y : Int) : Int := daysBeforeYear y + 4

/-- Largest ordinal representable by Python's `datetime.date`
(December 31 of year 9999). -/
def maxOrdinal : Int := 3652059

/-- Guard for Python date construction / `timedelta` arithmetic: a result
outside `date.min .. date.max` raises `OverflowError`, modelled as `none`. -/
def checkDate (o : Int) : Option Int :=
  if 1 ≤ o ∧ o ≤ maxOrdinal then some o else none

/-- Python `date.weekday()`: Monday = 0 .. Sunday = 6.  Ordinal 1
(January 1 of year 1) is a Monday. -/
def weekday (o : Int) : Int := (o - 1) % 7

/-- Embedding of `get_week_dates` (src/main.py:39-52), with the defaulted `year`
argument made explicit (the source defaults it to the current clock year).
Returns the 7 ordinals Monday .. Sunday of ISO week `week_num` of `year`,
or `none` when Python would raise: `date(year, 1, 4)` raises `ValueError`
for a year outside 1..9999, and the `timedelta` shifts raise
`OverflowError` when a resulting date leaves the representable range. -/
def get_week_dates (week_num : Int) (year : Int) : Option (List Int) :=
  if 1 ≤ year ∧ year ≤ 9999 then
    (checkDate (jan4Ordinal year - weekday (jan4Ordinal year))).bind fun week_1_monday =>
      (checkDate (week_1_monday + 7 * (week_num - 1))).bind fun target_monday =>
        (List.range 7).mapM fun (i : Nat) => checkDate (target_monday + (i : Int))
  else none

/-! ## Conversion of an ordinal back to year/month/day (used by `strftime`). -/

/-- Civil-calendar fields `(year, month, day)` of a positive ordinal,
via the standard era/cycle decomposition of the Gregorian calendar. -/
def civilFromOrdinal (o : Nat) : Nat × Nat × Nat :=
  let z := o + 305
  let era := z / 146097
  let doe := z % 146097
  let yoe := (doe - doe / 1460 + doe / 36524 - doe / 146096) / 365
  let doy := doe - (365 * yoe + yoe / 4 - yoe / 100)
  let mp := (5 * doy + 2) / 153
  let d := doy - (153 * mp + 2) / 5 + 1
  let m := if mp < 10 then mp + 3 else mp - 9
  (if m ≤ 2 then era * 400 + yoe + 1 else era * 400 + yoe, m, d)

/-- Zero-pad a decimal rendering to 2 digits (`strftime` `%d` / `%m`). -/
def pad2 (n : Nat) : String := if n < 10 then "0" ++ natRepr n else natRepr n

/-- Zero-pad a decimal rendering to 4 digits (`strftime` `%Y`). -/
def pad4 (n : Nat) : String :=
  ⟨List.replicate (4 - (natDigits n).length) '0'⟩ ++ natRepr n

/-- Rendering `day_date.strftime("%d-%m-%Y")` on the date with ordinal `o`. -/
def strftimeDMY (o : Int) : String :=
  let c := civilFromOrdinal o.toNat
  pad2 c.2.2 ++ "-" ++ pad2 c.2.1 ++ "-" ++ pad4 c.1

/-- The fixed Monday-first French weekday table of `format_date_cell`. -/
def jours : List String :=
  ["Lundi", "Mardi", "Mercredi", "Jeudi", "Vendredi", "Samedi", "Dimanche"]

/-- Embedding of `format_date_cell` (src/main.py:54-59). -/
def format_date_cell (day_date : Int) : String :=
  jours.getD (weekday day_date).toNat "" ++ "<br/>" ++ strftimeDMY day_date

/-! ## Cell values and formatting (the openpyxl view used by the code) -/

/-- A cell's value: Python `None`, a string, an integer number, or a
`datetime.date`/`datetime.datetime` (carried as its date ordinal). -/
inductive CellValue where
  | empty : CellValue
  | text (s : String) : CellValue
  | num (n : Int) : CellValue
  | dateVal (o : Int) : CellValue
deriving DecidableEq, Repr

/-- The formatting attributes of a cell that `get_cell_style` reads.
`fill_rgb`/`font_rgb` are `none` when the fill / start color / font color
is absent or its `rgb` attribute is `None`; otherwise the raw RGB string. -/
structure Cell where
  value : CellValue
  fill_rgb : Option String
  font_rgb : Option String
  bold : Bool
  italic : Bool
  horizontal : Option String
  vertical : Option String
deriving DecidableEq, Repr

/-- Python truthiness of the `week_dates` argument (`None` and `[]` are falsy). -/
def wdTruthy : Option (List Int) → Bool
  | none => false
  | some l => !l.isEmpty

/-- Indexing `week_dates[i]`; `none` models the `IndexError` a too-short list raises. -/
def wdIndex (week_dates : Option (List Int)) (i : Nat) : Option Int :=
  match week_dates with
  | none => none
  | some l => l.get? i

/-- Python `value.startswith("=")`. -/
def isFormula (s : String) : Bool :=
  match s.data with
  | c :: _ => decide (c = '=')
  | [] => false

/-- The duplicated date-reconstruction block of `format_cell_value`
(src/main.py:71-73 and 84-86): index the week by `(row_idx - 2) % 7`.
An out-of-range index would raise `IndexError`, which the enclosing
`try`/`except` of `format_cell_value` turns into `""`. -/
def reconstruct_date (row_idx : Int) (week_dates : Option (List Int)) : String :=
  let day_index := (row_idx - 2) % 7
  if 0 ≤ day_index ∧ day_index < 7 then
    match wdIndex week_dates day_index.toNat with
    | some d => format_date_cell d
    | none => ""
  else ""

/-- Embedding of `format_cell_value` (src/main.py:61-90).  `row_idx`/`col_idx` are the
1-based coordinates the renderer passes (Python truthiness of `row_idx`
is `row_idx ≠ 0`); `week_dates` is `None` or the 7-element week list. -/
def format_cell_value (value : CellValue) (row_idx : Int) (col_idx : Int)
    (week_dates : Option (List Int)) (is_date_row : Bool) : String :=
  match value with
  | CellValue.text s =>
    if isFormula s then
      if is_date_row ∧ col_idx = 1 ∧ wdTruthy week_dates ∧ row_idx ≠ 0 then
        reconstruct_date row_idx week_dates
      else ""
    else if s = "" ∧ is_date_row ∧ col_idx = 1 ∧ wdTruthy week_dates ∧ row_idx ≠ 0 then
      reconstruct_date row_idx week_dates
    else s
  | CellValue.dateVal o => format_date_cell o
  | CellValue.num n => toString n
  | CellValue.empty =>
    if is_date_row ∧ col_idx = 1 ∧ wdTruthy week_dates ∧ row_idx ≠ 0 then
      reconstruct_date row_idx week_dates
    else ""

/-- Python `str(rgb)[-6:] if len(str(rgb)) > 6 else str(rgb)`. -/
def last6 (r : String) : String :=
  if 6 < r.length then r.drop (r.length - 6) else r

/-- One color block of `get_cell_style` (src/main.py:96-114): emit a
declaration unless the RGB value is falsy, the transparent sentinel
`"00000000"`, or its last 6 hex digits are `"000000"`. -/
def style_of_color (r : String) (prop : String) : List String :=
  if r ≠ "" ∧ r ≠ "00000000" then
    let hex_color := last6 r
    if hex_color ≠ "000000" then [prop ++ hex_color] else []
  else []

/-- Embedding of `get_cell_style` (src/main.py:92-128). -/
def get_cell_style (cell : Cell) : String :=
  let styles :=
    (match cell.fill_rgb with
      | none => []
      | some r => style_of_color r "background-color: #") ++
    (match cell.font_rgb with
      | none => []
      | some r => style_of_color r "color: #") ++
    (if cell.bold then ["font-weight: bold"] else []) ++
    (if cell.italic then ["font-style: italic"] else []) ++
    (if cell.horizontal = some "center" then ["text-align: center"] else []) ++
    (if cell.vertical = some "center" then ["vertical-align: middle"] else [])
  String.intercalate "; " styles

/-! ## Merge ranges and the merged-cell lookup table -/

/-- A merge range of a sheet (openpyxl `MergedCellRange` bounds). -/
structure MergeRange where
  min_row : Nat
  max_row : Nat
  min_col : Nat
  max_col : Nat
deriving DecidableEq, Repr

/-- The record stored per coordinate in `merged_cells_dict`. -/
structure MergeInfo where
  rowspan : Nat
  colspan : Nat
  is_main : Bool
deriving DecidableEq, Repr

/-- Fuel-driven bijective base-26 column lettering; `fuel > n` suffices. -/
def colLettersF : Nat → Nat → List Char
  | 0, _ => []
  | fuel + 1, n =>
    if n ≤ 26 then [Char.ofNat (64 + n)]
    else colLettersF fuel ((n - 1) / 26) ++ [Char.ofNat (65 + (n - 1) % 26)]

/-- openpyxl `get_column_letter` (1 → "A", 26 → "Z", 27 → "AA", ...). -/
def get_column_letter (n : Nat) : String := ⟨colLettersF (n + 1) n⟩

/-- The coordinate string of a cell, `f"{get_column_letter(col)}{row}"`;
this is also openpyxl's `cell.coordinate`. -/
def cellCoord (row : Nat) (col : Nat) : String :=
  get_column_letter col ++ natRepr row

/-- Python `range(a, b + 1)` as a list. -/
def range_list (a b : Nat) : List Nat := (List.range (b + 1 - a)).map (a + ·)

/-- The dict entries one merge range contributes (src/main.py:158-170),
in the insertion order of the source's nested loops. -/
def merge_entries (merged_range : MergeRange) : List (String × MergeInfo) :=
  (range_list merged_range.min_row merged_range.max_row).flatMap fun row =>
    (range_list merged_range.min_col merged_range.max_col).map fun col =>
      (cellCoord row col,
       { rowspan := merged_range.max_row - merged_range.min_row + 1,
         colspan := merged_range.max_col - merged_range.min_col + 1,
         is_main := decide (row = merged_range.min_row ∧ col = merged_range.min_col) })

/-- The dict `merged_cells_dict` as its insertion sequence (src/main.py:157-170). -/
def merged_cells_dict (ranges : List MergeRange) : List (String × MergeInfo) :=
  ranges.flatMap merge_entries

/-- Python dict lookup over an insertion sequence: a later binding for the
same key shadows an earlier one; `none` means the key is absent. -/
def dict_lookup : List (String × MergeInfo) → String → Option MergeInfo
  | [], _ => none
  | p :: rest, k =>
    match dict_lookup rest k with
    | some v => some v
    | none => if p.1 = k then some p.2 else none

/-! ## Sheets and the grid renderer -/

/-- The view of an openpyxl worksheet used by the code: `ws.cell(row, col)`
(total: openpyxl materializes empty cells on demand), the merge-range list
and `ws.max_row`. -/
structure Sheet where
  cells : Nat → Nat → Cell
  merged_ranges : List MergeRange
  max_row : Nat

/-- The per-row test of `detect_date_rows`: the column-A cell holds a
date value (`hasattr(..., 'strftime')` on a truthy value) or a formula. -/
def date_row_cell (ws : Sheet) (row_idx : Nat) : Bool :=
  match (ws.cells row_idx 1).value with
  | CellValue.dateVal _ => true
  | CellValue.text s => isFormula s
  | _ => false

/-- Embedding of `detect_date_rows` (src/main.py:130-140): among rows
`range(1, min(30, ws.max_row + 1))`, those whose column-A cell holds a
date value or a formula string.  The Python `set` is kept as the list of
matching row indices (only membership is ever consumed). -/
def detect_date_rows (ws : Sheet) : List Nat :=
  (range_list 1 (min 29 ws.max_row)).filter (date_row_cell ws)

/-- Python `str.isdigit` restricted to ASCII digit strings. -/
def isdigitStr (s : String) : Bool :=
  !s.data.isEmpty && s.data.all fun c => decide (48 ≤ c.toNat ∧ c.toNat ≤ 57)

/-- Python `int(s)` for a decimal digit string. -/
def strToNat (s : String) : Nat :=
  s.data.foldl (fun acc c => acc * 10 + (c.toNat - 48)) 0

/-- The week-number detection of `sheet_to_html` (src/main.py:146-151).
Outer `none`: `get_week_dates` raised (the exception escapes
`sheet_to_html`).  Inner value: the `week_dates` variable (`None` when the
sheet name is absent or not purely numeric). -/
def sheet_week_dates (sheet_name : Option String) (year : Int) :
    Option (Option (List Int)) :=
  match sheet_name with
  | none => some none
  | some s =>
    if s ≠ "" ∧ isdigitStr s then
      (get_week_dates (strToNat s) year).map some
    else some none

/-- Is the coordinate a non-anchor member of a merge (the `continue` case
of src/main.py:184-187)? -/
def is_skipped (mdict : List (String × MergeInfo)) (row_idx col_idx : Nat) : Bool :=
  match dict_lookup mdict (cellCoord row_idx col_idx) with
  | some info => !info.is_main
  | none => false

/-- The `<td>` lines one grid coordinate contributes: `[]` when the
coordinate is skipped as a non-anchor merged cell, otherwise the single
formatted `<td>` line (src/main.py:181-212). -/
def render_cell (ws : Sheet) (mdict : List (String × MergeInfo))
    (week_dates : Option (List Int)) (date_rows : List Nat)
    (row_idx col_idx : Nat) : List String :=
  if is_skipped mdict row_idx col_idx then []
  else
    let cell := ws.cells row_idx col_idx
    let is_date_row : Bool :=
      decide (row_idx ∈ date_rows) || (decide (col_idx = 1) && week_dates.isSome)
    let value := format_cell_value cell.value (row_idx : Int) (col_idx : Int)
      week_dates is_date_row
    let style := get_cell_style cell
    let style_attr := if style ≠ "" then " style=\"" ++ style ++ "\"" else ""
    let style_attr2 :=
      match dict_lookup mdict (cellCoord row_idx col_idx) with
      | some merge_info =>
        let a1 := if 1 < merge_info.colspan then
            style_attr ++ " colspan=\"" ++ natRepr merge_info.colspan ++ "\""
          else style_attr
        if 1 < merge_info.rowspan then
          a1 ++ " rowspan=\"" ++ natRepr merge_info.rowspan ++ "\""
        else a1
      | none => style_attr
    ["    <td" ++ style_attr2 ++ ">" ++ value ++ "</td>"]

/-- The lines one grid row contributes (src/main.py:177-214). -/
def render_row (ws : Sheet) (mdict : List (String × MergeInfo))
    (week_dates : Option (List Int)) (date_rows : List Nat)
    (row_idx : Nat) : List String :=
  "  <tr>" :: (range_list 1 20).flatMap (render_cell ws mdict week_dates date_rows row_idx)
    ++ ["  </tr>"]

/-- Embedding of `sheet_to_html` (src/main.py:142-217) as the list of lines the source
accumulates in `html` before joining; `none` models the `OverflowError` /
`ValueError` that `get_week_dates` can raise for a numeric sheet name
naming a week outside the representable calendar (it escapes the function
as no `try` encloses it).  `year` is the clock year `datetime.now().year`
that the source's call `get_week_dates(week_num)` defaults to. -/
def sheet_to_html_list (ws : Sheet) (sheet_name : Option String) (year : Int) :
    Option (List String) :=
  match sheet_week_dates sheet_name year with
  | none => none
  | some week_dates =>
    let date_rows := detect_date_rows ws
    let mdict := merged_cells_dict ws.merged_ranges
    some ("<table class=\"excel-table\">"
      :: (range_list 1 29).flatMap (render_row ws mdict week_dates date_rows)
      ++ ["</table>"])

/-- The final string of `sheet_to_html`: `'\n'.join(html)`. -/
def sheet_to_html (ws : Sheet) (sheet_name : Option String) (year : Int) :
    Option String :=
  (sheet_to_html_list ws sheet_name year).map (String.intercalate "\n")

/-! ## The workbook conversion pass and its cache -/

/-- The loaded workbook view: ordered sheet names and the sheet each names. -/
structure Workbook where
  sheetnames : List String
  sheets : String → Sheet

/-- The global cache pair `(sheets_cache, sheets_cache_mtime)`
(src/main.py:34-35).  The modification timestamp is carried as an
abstract tick count; the code only ever compares it for equality. -/
structure CacheState where
  sheets_cache : List (String × String)
  sheets_cache_mtime : Int
deriving DecidableEq, Repr

/-- The conversion loop body of `convert_excel_file` (src/main.py:236-239):
render every sheet in order; `none` when some sheet's rendering raises. -/
def render_workbook (wb : Workbook) (year : Int) :
    Option (List (String × String)) :=
  wb.sheetnames.mapM fun sheet_name =>
    (sheet_to_html (wb.sheets sheet_name) (some sheet_name) year).map
      fun html => (sheet_name, html)

/-- Embedding of `convert_excel_file` (src/main.py:223-249) as a state transformer on
the cache.  `stat` is the result of `file_path.stat().st_mtime` (`none` =
raised), `load` the result of `openpyxl.load_workbook` (`none` = raised);
the surrounding `try`/`except` returns `{}` and leaves both cache globals
untouched on any exception.  Returns (returned mapping, new cache state). -/
def convert_excel_file (stat : Option Int) (load : Option Workbook)
    (year : Int) (st : CacheState) :
    List (String × String) × CacheState :=
  match stat with
  | none => ([], st)
  | some current_mtime =>
    if st.sheets_cache ≠ [] ∧ st.sheets_cache_mtime = current_mtime then
      (st.sheets_cache, st)
    else
      match load with
      | none => ([], st)
      | some wb =>
        match render_workbook wb year with
        | none => ([], st)
        | some sheets_html =>
          (sheets_html, { sheets_cache := sheets_html,
                          sheets_cache_mtime := current_mtime })


/-! ## Derived values and predicates used in the statements -/

/-- The ordinal of the Monday the source computes for `(week, year)`. -/
def target_monday (w y : Int) : Int :=
  jan4Ordinal y - weekday (jan4Ordinal y) + 7 * (w - 1)

/-- The fully empty worksheet (every cell unset, no merges). -/
def emptySheet : Sheet :=
  ⟨fun _ _ => ⟨CellValue.empty, none, none, false, false, none, none⟩, [], 0⟩

/-- A worksheet whose only content sits at row 35, outside the window. -/
def rowThirtyFiveSheet : Sheet :=
  ⟨fun r c => if r = 35 ∧ c = 1 then
      ⟨CellValue.text "hors fenetre", none, none, true, false, none, none⟩
    else ⟨CellValue.empty, none, none, false, false, none, none⟩, [], 35⟩

/-- Membership of a coordinate in a merge range's rectangle. -/
def inRange (mr : MergeRange) (r c : Nat) : Prop :=
  mr.min_row ≤ r ∧ r ≤ mr.max_row ∧ mr.min_col ≤ c ∧ c ≤ mr.max_col

/-- The data-model invariant on a merge range: 1-based bounds, min ≤ max. -/
def ValidRange (mr : MergeRange) : Prop :=
  1 ≤ mr.min_row ∧ mr.min_row ≤ mr.max_row ∧ 1 ≤ mr.min_col ∧ mr.min_col ≤ mr.max_col

/-- Two merge ranges share no coordinate. -/
def rangesDisjoint (m1 m2 : MergeRange) : Prop :=
  ∀ r c : Nat, ¬(inRange m1 r c ∧ inRange m2 r c)

instance (mr : MergeRange) (r c : Nat) : Decidable (inRange mr r c) := by
  unfold inRange
  infer_instance

instance (mr : MergeRange) : Decidable (ValidRange mr) := by
  unfold ValidRange
  infer_instance

/-! # Theorems

## Shared lemmas about `get_week_dates` -/

lemma checkDate_eq_some {a b : Int} :
    checkDate a = some b ↔ b = a ∧ 1 ≤ a ∧ a ≤ maxOrdinal := by
  constructor
  · intro h
    unfold checkDate at h
    split at h
    · injection h with h
      exact ⟨h.symm, by assumption⟩
    · cases h
  · rintro ⟨rfl, h1, h2⟩
    unfold checkDate
    rw [if_pos ⟨h1, h2⟩]

lemma checkDate_eq_none {a : Int} :
    checkDate a = none ↔ ¬(1 ≤ a ∧ a ≤ maxOrdinal) := by
  unfold checkDate
  split
  · simp only [reduceCtorEq, false_iff, not_not]
    assumption
  · simp only [true_iff]
    assumption

lemma mapM_some_forall {α β : Type} (f : α → Option β) :
    ∀ (l : List α) (ds : List β), l.mapM f = some ds → ∀ a ∈ l, ∃ b, f a = some b := by
  intro l
  induction l with
  | nil => intro ds _ a ha; cases ha
  | cons x xs ih =>
    intro ds h a ha
    rw [List.mapM_cons] at h
    cases hx : f x with
    | none => rw [hx] at h; cases h
    | some b =>
      rw [hx] at h
      cases hxs : xs.mapM f with
      | none => rw [hxs] at h; cases h
      | some bs =>
        cases ha with
        | head => exact ⟨b, hx⟩
        | tail _ ha' => exact ih bs hxs a ha'

lemma mapM_checkDate (tm : Int) (h1 : 1 ≤ tm) (h2 : tm + 6 ≤ maxOrdinal) :
    (List.range 7).mapM (fun (i : Nat) => checkDate (tm + (i : Int))) =
      some [tm, tm + 1, tm + 2, tm + 3, tm + 4, tm + 5, tm + 6] := by
  have hc : ∀ k : Int, 0 ≤ k → k ≤ 6 → checkDate (tm + k) = some (tm + k) := by
    intro k hk1 hk2
    exact checkDate_eq_some.mpr ⟨rfl, by omega, by omega⟩
  rw [show List.range 7 = [0, 1, 2, 3, 4, 5, 6] from rfl]
  simp only [List.mapM_cons, List.mapM_nil, Nat.cast_zero, Nat.cast_one, Nat.cast_ofNat]
  rw [hc 0 (by omega) (by omega), hc 1 (by omega) (by omega), hc 2 (by omega) (by omega),
    hc 3 (by omega) (by omega), hc 4 (by omega) (by omega), hc 5 (by omega) (by omega),
    hc 6 (by omega) (by omega)]
  simp only [Option.bind_eq_bind, Option.some_bind, Option.pure_def, Option.some_inj]
  norm_num

lemma jan4Ordinal_bounds {y : Int} (h1 : 1 ≤ y) (h2 : y ≤ 9999) :
    4 ≤ jan4Ordinal y ∧ jan4Ordinal y ≤ maxOrdinal := by
  unfold jan4Ordinal daysBeforeYear maxOrdinal
  omega

lemma weekday_bounds (o : Int) : 0 ≤ weekday o ∧ weekday o ≤ 6 := by
  unfold weekday
  omega

lemma week_1_monday_check {y : Int} (h1 : 1 ≤ y) (h2 : y ≤ 9999) :
    checkDate (jan4Ordinal y - weekday (jan4Ordinal y)) =
      some (jan4Ordinal y - weekday (jan4Ordinal y)) := by
  have hjb := jan4Ordinal_bounds h1 h2
  have hwk := weekday_bounds (jan4Ordinal y)
  have hle : weekday (jan4Ordinal y) ≤ jan4Ordinal y - 1 := by
    unfold weekday
    omega
  exact checkDate_eq_some.mpr ⟨rfl, by omega, by omega⟩

/-- Full input/output characterization of `get_week_dates`: it succeeds,
returning the 7 consecutive ordinals from the target Monday, exactly when
the year is constructible and the whole target week stays inside the
representable calendar; in every other case the Python original raises. -/
lemma get_week_dates_spec (w y : Int) :
    ((1 ≤ y ∧ y ≤ 9999) ∧ 1 ≤ target_monday w y ∧ target_monday w y + 6 ≤ maxOrdinal →
      get_week_dates w y =
        some [target_monday w y, target_monday w y + 1, target_monday w y + 2,
          target_monday w y + 3, target_monday w y + 4, target_monday w y + 5,
          target_monday w y + 6]) ∧
    (¬((1 ≤ y ∧ y ≤ 9999) ∧ 1 ≤ target_monday w y ∧ target_monday w y + 6 ≤ maxOrdinal) →
      get_week_dates w y = none) := by
  constructor
  · rintro ⟨⟨hy1, hy2⟩, htm1, htm2⟩
    unfold get_week_dates
    rw [if_pos ⟨hy1, hy2⟩, week_1_monday_check hy1 hy2]
    simp only [Option.bind_eq_bind, Option.some_bind]
    rw [show checkDate (jan4Ordinal y - weekday (jan4Ordinal y) + 7 * (w - 1)) =
        some (target_monday w y) from
      checkDate_eq_some.mpr ⟨rfl, htm1, by unfold target_monday at htm2; omega⟩]
    simp only [Option.some_bind]
    exact mapM_checkDate _ htm1 htm2
  · intro hnot
    by_cases hy : 1 ≤ y ∧ y ≤ 9999
    · unfold get_week_dates
      rw [if_pos hy, week_1_monday_check hy.1 hy.2]
      simp only [Option.bind_eq_bind, Option.some_bind]
      by_cases htm : 1 ≤ target_monday w y ∧ target_monday w y ≤ maxOrdinal
      · rw [show checkDate (jan4Ordinal y - weekday (jan4Ordinal y) + 7 * (w - 1)) =
            some (target_monday w y) from
          checkDate_eq_some.mpr ⟨rfl, htm.1, htm.2⟩]
        simp only [Option.some_bind]
        have h6 : maxOrdinal < target_monday w y + 6 := by
          rcases not_and_or.mp hnot with h | h
          · exact absurd hy h
          · rcases not_and_or.mp h with h' | h' <;> omega
        cases hm : (List.range 7).mapM fun (i : Nat) => checkDate (target_monday w y + (i : Int)) with
        | none => rfl
        | some ds =>
          exfalso
          obtain ⟨b, hb⟩ := mapM_some_forall _ _ _ hm 6 (by decide)
          rw [checkDate_eq_some] at hb
          have hcast : ((6 : Nat) : Int) = 6 := by norm_num
          rw [hcast] at hb
          omega
      · rw [show checkDate (jan4Ordinal y - weekday (jan4Ordinal y) + 7 * (w - 1)) = none from
          checkDate_eq_none.mpr (by unfold target_monday at htm; omega)]
        rfl
    · unfold get_week_dates
      rw [if_neg hy]

/-! ## C1: the week-date range -/

/-- C1 counterexample: the claim quantifies over every year, but for year 0
(with the positive week number 1) `date(0, 1, 4)` raises `ValueError`
instead of returning 7 dates. -/
theorem c1_counterexample : get_week_dates 1 0 = none := by decide

/-- C1 (amended): whenever `get_week_dates` returns at all (year 1..9999
and the target week representable), the result is an ordered run of
exactly 7 ordinals, each one day after the previous, the last 6 days after
the first, the first a Monday, and for week 1 it contains January 4th. -/
theorem c1_week_dates_shape (w y : Int) (ds : List Int)
    (h : get_week_dates w y = some ds) :
    ds.length = 7 ∧
    (∀ i : Nat, i + 1 < 7 → ds.getD (i + 1) 0 = ds.getD i 0 + 1) ∧
    ds.getD 6 0 = ds.getD 0 0 + 6 ∧
    weekday (ds.getD 0 0) = 0 ∧
    (w = 1 → jan4Ordinal y ∈ ds) := by
  obtain ⟨hpos, hneg⟩ := get_week_dates_spec w y
  by_cases hc : (1 ≤ y ∧ y ≤ 9999) ∧ 1 ≤ target_monday w y ∧
      target_monday w y + 6 ≤ maxOrdinal
  · rw [hpos hc] at h
    injection h with h
    subst h
    refine ⟨rfl, ?_, by rfl, ?_, ?_⟩
    · intro i hi
      have h5 : i ≤ 5 := by omega
      interval_cases i <;> simp <;> omega
    · simp only [List.getD_cons_zero]
      unfold target_monday weekday
      omega
    · intro hw
      subst hw
      unfold target_monday weekday
      simp only [List.mem_cons, List.not_mem_nil, or_false]
      omega
  · rw [hneg hc] at h
    cases h

/-- C1 witness: week 1 of 2024 (January 1-7, 2024). -/
theorem c1_week_dates_shape_witness :
    get_week_dates 1 2024 =
      some [738886, 738887, 738888, 738889, 738890, 738891, 738892] ∧
    (([738886, 738887, 738888, 738889, 738890, 738891, 738892] : List Int).length = 7 ∧
     (∀ i : Nat, i + 1 < 7 →
       ([738886, 738887, 738888, 738889, 738890, 738891, 738892] : List Int).getD (i + 1) 0 =
       ([738886, 738887, 738888, 738889, 738890, 738891, 738892] : List Int).getD i 0 + 1) ∧
     ([738886, 738887, 738888, 738889, 738890, 738891, 738892] : List Int).getD 6 0 =
       ([738886, 738887, 738888, 738889, 738890, 738891, 738892] : List Int).getD 0 0 + 6 ∧
     weekday (([738886, 738887, 738888, 738889, 738890, 738891, 738892] : List Int).getD 0 0) = 0 ∧
     ((1 : Int) = 1 →
       jan4Ordinal 2024 ∈ ([738886, 738887, 738888, 738889, 738890, 738891, 738892] : List Int))) :=
  ⟨by decide, c1_week_dates_shape 1 2024 _ (by decide)⟩

/-! ## C8: absence / presence of error cases -/

/-- C8 counterexample: the claim says arbitrarily large week numbers never
raise, but week 1000000 of 2024 leaves the representable calendar and the
`timedelta` shift raises `OverflowError`. -/
theorem c8_counterexample : get_week_dates 1000000 2024 = none := by decide

/-- C8 (amended): for every year 1..9999 and every integer week number —
zero, negative or out of the ISO 1..53 range included — whose target week
stays inside the representable calendar (ordinals 1..3652059),
`get_week_dates` returns a 7-date range without any error. -/
theorem c8_no_error_in_range (w y : Int) (hy : 1 ≤ y ∧ y ≤ 9999)
    (h1 : 1 ≤ target_monday w y) (h2 : target_monday w y + 6 ≤ maxOrdinal) :
    ∃ ds, get_week_dates w y = some ds ∧ ds.length = 7 := by
  obtain ⟨hpos, _⟩ := get_week_dates_spec w y
  exact ⟨_, hpos ⟨hy, h1, h2⟩, rfl⟩

/-- C8 witness: week number 0 (out of ISO range) still succeeds for 2024. -/
theorem c8_no_error_in_range_witness :
    ((1 : Int) ≤ 2024 ∧ (2024 : Int) ≤ 9999) ∧
    1 ≤ target_monday 0 2024 ∧ target_monday 0 2024 + 6 ≤ maxOrdinal ∧
    (∃ ds, get_week_dates 0 2024 = some ds ∧ ds.length = 7) :=
  ⟨by decide, by decide, by decide,
    c8_no_error_in_range 0 2024 (by decide) (by decide) (by decide)⟩

/-! ## Shared lemmas about the date-reconstruction path -/

/-- A Formula or blank cell in a date row of column 1, with a week list
available and a truthy row index, always takes the reconstruction path. -/
lemma format_cell_value_reconstruct (v : CellValue) (r : Int) (hr : r ≠ 0)
    (wd : List Int) (hwd : wd ≠ [])
    (hv : v = CellValue.empty ∨ v = CellValue.text "" ∨
      ∃ s, v = CellValue.text s ∧ isFormula s = true) :
    format_cell_value v r 1 (some wd) true = reconstruct_date r (some wd) := by
  have htr : wdTruthy (some wd) = true := by
    unfold wdTruthy
    cases wd with
    | nil => exact absurd rfl hwd
    | cons a l => rfl
  rcases hv with rfl | rfl | ⟨s, rfl, hs⟩
  · simp only [format_cell_value]
    simp [htr, hr]
  · simp only [format_cell_value]
    simp [show isFormula "" = false from rfl, htr, hr]
  · simp only [format_cell_value]
    simp [hs, htr, hr]

/-- With a 7-element week list the reconstruction always lands on the
entry at index `(row − 2) mod 7`. -/
lemma reconstruct_date_eq (r : Int) (wd : List Int) (hwd : wd.length = 7) :
    reconstruct_date r (some wd) = format_date_cell (wd.getD ((r - 2) % 7).toNat 0) := by
  unfold reconstruct_date
  rw [if_pos (by omega : 0 ≤ (r - 2) % 7 ∧ (r - 2) % 7 < 7)]
  have hlt : ((r - 2) % 7).toNat < wd.length := by omega
  simp only [wdIndex]
  rw [List.get?_eq_get hlt, List.getD_eq_getElem wd 0 hlt]
  rfl

/-- A formatted date label is never the empty string (it contains the
literal line break). -/
lemma format_date_cell_ne (d : Int) : format_date_cell d ≠ "" := by
  intro h
  have hl := congrArg String.length h
  unfold format_date_cell at hl
  rw [String.length_append, String.length_append,
    show ("<br/>" : String).length = 5 from rfl,
    show ("" : String).length = 0 from rfl] at hl
  omega

/-! ## C3: periodicity of the date reconstruction -/

/-- C3: for a Formula or blank column-1 cell in a date row with a WeekDate
sequence available, the reconstructed label is periodic with period 7 in
the row index; row 2 and row 9 both receive the first WeekDate. -/
theorem c3_reconstruction_periodic (r : Int) (hr : r ≠ 0) (hr7 : r + 7 ≠ 0)
    (wd : List Int) (hwd : wd.length = 7) (v : CellValue)
    (hv : v = CellValue.empty ∨ v = CellValue.text "" ∨
      ∃ s, v = CellValue.text s ∧ isFormula s = true) :
    format_cell_value v r 1 (some wd) true = format_cell_value v (r + 7) 1 (some wd) true ∧
    format_cell_value v 2 1 (some wd) true = format_date_cell (wd.getD 0 0) ∧
    format_cell_value v 9 1 (some wd) true = format_date_cell (wd.getD 0 0) := by
  have hne : wd ≠ [] := by intro h; rw [h] at hwd; cases hwd
  refine ⟨?_, ?_, ?_⟩
  · rw [format_cell_value_reconstruct v r hr wd hne hv,
      format_cell_value_reconstruct v (r + 7) hr7 wd hne hv,
      reconstruct_date_eq r wd hwd, reconstruct_date_eq (r + 7) wd hwd]
    have : (r - 2) % 7 = (r + 7 - 2) % 7 := by omega
    rw [this]
  · rw [format_cell_value_reconstruct v 2 (by norm_num) wd hne hv,
      reconstruct_date_eq 2 wd hwd]
    norm_num
  · rw [format_cell_value_reconstruct v 9 (by norm_num) wd hne hv,
      reconstruct_date_eq 9 wd hwd]
    norm_num

/-- C3 witness: a blank (None) cell, row 2 versus row 9, on week 1 of 2024. -/
theorem c3_reconstruction_periodic_witness :
    format_cell_value CellValue.empty 2 1 (some [738886, 738887, 738888, 738889, 738890, 738891, 738892]) true =
      format_cell_value CellValue.empty (2 + 7) 1 (some [738886, 738887, 738888, 738889, 738890, 738891, 738892]) true ∧
    format_cell_value CellValue.empty 2 1 (some [738886, 738887, 738888, 738889, 738890, 738891, 738892]) true =
      format_date_cell (([738886, 738887, 738888, 738889, 738890, 738891, 738892] : List Int).getD 0 0) ∧
    format_cell_value CellValue.empty 9 1 (some [738886, 738887, 738888, 738889, 738890, 738891, 738892]) true =
      format_date_cell (([738886, 738887, 738888, 738889, 738890, 738891, 738892] : List Int).getD 0 0) :=
  c3_reconstruction_periodic 2 (by norm_num) (by norm_num)
    [738886, 738887, 738888, 738889, 738890, 738891, 738892] rfl
    CellValue.empty (Or.inl rfl)

/-! ## C9: the inner range guard is unreachable -/

/-- C9: `(row − 2) mod 7` is always within 0..6, so a Formula or blank
column-1 cell that meets the date-row preconditions always receives a
reconstructed (non-empty) date label; the guarded empty fallback never
fires. -/
theorem c9_day_index_in_range (r : Int) (hr : r ≠ 0)
    (wd : List Int) (hwd : wd.length = 7) (v : CellValue)
    (hv : v = CellValue.empty ∨ v = CellValue.text "" ∨
      ∃ s, v = CellValue.text s ∧ isFormula s = true) :
    (0 ≤ (r - 2) % 7 ∧ (r - 2) % 7 < 7) ∧
    format_cell_value v r 1 (some wd) true =
      format_date_cell (wd.getD ((r - 2) % 7).toNat 0) ∧
    format_cell_value v r 1 (some wd) true ≠ "" := by
  have hne : wd ≠ [] := by intro h; rw [h] at hwd; cases hwd
  have heq : format_cell_value v r 1 (some wd) true =
      format_date_cell (wd.getD ((r - 2) % 7).toNat 0) := by
    rw [format_cell_value_reconstruct v r hr wd hne hv, reconstruct_date_eq r wd hwd]
  exact ⟨by omega, heq, heq ▸ format_date_cell_ne _⟩

/-- C9 witness: a Formula cell at row 9 on week 2 of 2024. -/
theorem c9_day_index_in_range_witness :
    (0 ≤ ((9 : Int) - 2) % 7 ∧ ((9 : Int) - 2) % 7 < 7) ∧
    format_cell_value (CellValue.text "=B2") 9 1 (some [738893, 738894, 738895, 738896, 738897, 738898, 738899]) true =
      format_date_cell (([738893, 738894, 738895, 738896, 738897, 738898, 738899] : List Int).getD (((9 : Int) - 2) % 7).toNat 0) ∧
    format_cell_value (CellValue.text "=B2") 9 1 (some [738893, 738894, 738895, 738896, 738897, 738898, 738899]) true ≠ "" :=
  c9_day_index_in_range 9 (by norm_num)
    [738893, 738894, 738895, 738896, 738897, 738898, 738899] rfl
    (CellValue.text "=B2") (Or.inr (Or.inr ⟨"=B2", rfl, by decide⟩))

/-! ## C4: color skipping in style extraction -/

/-- C4 counterexample: for the opaque black color `"FF000000"` the claim
requires a `background-color: #000000` (resp. `color: #000000`)
declaration, but the code also skips any color whose last 6 hex digits are
`"000000"`, so no declaration at all is emitted. -/
theorem c4_counterexample :
    get_cell_style ⟨CellValue.empty, some "FF000000", none, false, false, none, none⟩ = "" ∧
    get_cell_style ⟨CellValue.empty, none, some "FF000000", false, false, none, none⟩ = "" ∧
    "" ≠ "background-color: #000000" ∧ "" ≠ "color: #000000" := by
  refine ⟨rfl, rfl, by decide, by decide⟩

/-- C4 (amended): a background/text color declaration is skipped when the
resolved color is falsy, the transparent sentinel `"00000000"`, or has
`"000000"` as its last 6 hex digits; for every other color a declaration
with the last 6 hex digits is emitted. -/
theorem c4_style_color (r q : String)
    (hr1 : r ≠ "") (hr2 : r ≠ "00000000") (hr3 : last6 r ≠ "000000")
    (hq1 : q ≠ "") (hq2 : q ≠ "00000000") (hq3 : last6 q ≠ "000000") :
    get_cell_style ⟨CellValue.empty, some r, some q, false, false, none, none⟩ =
      "background-color: #" ++ last6 r ++ "; " ++ ("color: #" ++ last6 q) ∧
    (∀ p : String, p = "" ∨ p = "00000000" ∨ last6 p = "000000" →
      get_cell_style ⟨CellValue.empty, some p, some p, false, false, none, none⟩ = "") := by
  constructor
  · simp only [get_cell_style, style_of_color]
    rw [if_pos ⟨hr1, hr2⟩, if_pos hr3, if_pos ⟨hq1, hq2⟩, if_pos hq3]
    rfl
  · intro p hp
    simp only [get_cell_style, style_of_color]
    rcases hp with rfl | rfl | hp
    · rw [if_neg (by simp)]
      rfl
    · rw [if_neg (by simp)]
      rfl
    · by_cases hp1 : p = ""
      · subst hp1
        rw [if_neg (by simp)]
        rfl
      · by_cases hp2 : p = "00000000"
        · subst hp2
          rw [if_neg (by simp)]
          rfl
        · rw [if_neg (not_not_intro hp), if_neg (not_not_intro hp), ite_self]
          rfl

/-- C4 witness: an opaque red fill and an opaque green font color. -/
theorem c4_style_color_witness :
    (("FFFF0000" : String) ≠ "" ∧ ("FFFF0000" : String) ≠ "00000000" ∧
      last6 "FFFF0000" ≠ "000000" ∧
      ("FF00AA00" : String) ≠ "" ∧ ("FF00AA00" : String) ≠ "00000000" ∧
      last6 "FF00AA00" ≠ "000000") ∧
    get_cell_style ⟨CellValue.empty, some "FFFF0000", some "FF00AA00", false, false, none, none⟩ =
      "background-color: #" ++ last6 "FFFF0000" ++ "; " ++ ("color: #" ++ last6 "FF00AA00") ∧
    (∀ p : String, p = "" ∨ p = "00000000" ∨ last6 p = "000000" →
      get_cell_style ⟨CellValue.empty, some p, some p, false, false, none, none⟩ = "") :=
  ⟨⟨by decide, by decide, by decide, by decide, by decide, by decide⟩,
    c4_style_color "FFFF0000" "FF00AA00" (by decide) (by decide) (by decide)
      (by decide) (by decide) (by decide)⟩

/-! ## C5: atomicity of the cache on conversion errors -/

/-- C5: when `stat`, `load_workbook` or any sheet's rendering raises
during a conversion pass (and the pass was not served from the cache),
`convert_excel_file` returns the empty mapping and leaves the cache —
mapping and timestamp tag — exactly as it was. -/
theorem c5_error_leaves_cache (stat : Option Int) (load : Option Workbook)
    (year : Int) (st : CacheState)
    (h : stat = none ∨ ∃ m, stat = some m ∧
      ¬(st.sheets_cache ≠ [] ∧ st.sheets_cache_mtime = m) ∧
      (load = none ∨ ∃ wb, load = some wb ∧ render_workbook wb year = none)) :
    convert_excel_file stat load year st = ([], st) := by
  rcases h with rfl | ⟨m, rfl, hmiss, hfail⟩
  · rfl
  · simp only [convert_excel_file]
    rw [if_neg hmiss]
    rcases hfail with rfl | ⟨wb, rfl, hwb⟩
    · rfl
    · simp only [hwb]

/-- C5 witness: a failing `stat` call with a populated cache. -/
theorem c5_error_leaves_cache_witness :
    ((none : Option Int) = none ∨ ∃ m, (none : Option Int) = some m ∧
      ¬((CacheState.mk [("a", "x")] 5).sheets_cache ≠ [] ∧
        (CacheState.mk [("a", "x")] 5).sheets_cache_mtime = m) ∧
      ((none : Option Workbook) = none ∨
        ∃ wb, (none : Option Workbook) = some wb ∧ render_workbook wb 2024 = none)) ∧
    convert_excel_file none none 2024 (CacheState.mk [("a", "x")] 5) =
      ([], CacheState.mk [("a", "x")] 5) :=
  ⟨Or.inl rfl, c5_error_leaves_cache none none 2024 (CacheState.mk [("a", "x")] 5) (Or.inl rfl)⟩

/-! ## C6: cache hits and idempotence of conversion -/

/-- C6: when the stored timestamp tag equals the current timestamp and the
cached mapping is non-empty, `convert_excel_file` returns the cached
mapping with the state unchanged (no re-rendering — the result does not
consult `load`); and converting twice with an unmodified workbook yields
the identical mapping and state. -/
theorem c6_cache_hit_and_idempotence (stat : Option Int) (load : Option Workbook)
    (year : Int) (st : CacheState) :
    (∀ m, stat = some m → st.sheets_cache ≠ [] → st.sheets_cache_mtime = m →
      convert_excel_file stat load year st = (st.sheets_cache, st)) ∧
    convert_excel_file stat load year (convert_excel_file stat load year st).2 =
      convert_excel_file stat load year st := by
  constructor
  · rintro m rfl h1 h2
    simp only [convert_excel_file]
    rw [if_pos ⟨h1, h2⟩]
  · cases stat with
    | none => rfl
    | some m =>
      by_cases hhit : st.sheets_cache ≠ [] ∧ st.sheets_cache_mtime = m
      · have hc : convert_excel_file (some m) load year st = (st.sheets_cache, st) := by
          simp only [convert_excel_file]
          rw [if_pos hhit]
        rw [hc, hc]
      · cases load with
        | none =>
          have hc : convert_excel_file (some m) none year st = ([], st) := by
            simp only [convert_excel_file]
            rw [if_neg hhit]
          rw [hc, hc]
        | some wb =>
          cases hr : render_workbook wb year with
          | none =>
            have hc : convert_excel_file (some m) (some wb) year st = ([], st) := by
              simp only [convert_excel_file]
              rw [if_neg hhit, hr]
            rw [hc, hc]
          | some mp =>
            have hc : convert_excel_file (some m) (some wb) year st =
                (mp, CacheState.mk mp m) := by
              simp only [convert_excel_file]
              rw [if_neg hhit, hr]
            rw [hc]
            by_cases hmp : mp = []
            · subst hmp
              have hc2 : convert_excel_file (some m) (some wb) year (CacheState.mk [] m) =
                  ([], CacheState.mk [] m) := by
                simp only [convert_excel_file]
                rw [if_neg (by simp), hr]
              exact hc2
            · have hc2 : convert_excel_file (some m) (some wb) year (CacheState.mk mp m) =
                  (mp, CacheState.mk mp m) := by
                simp only [convert_excel_file]
                rw [if_pos ⟨hmp, trivial⟩]
              exact hc2

/-- C6 witness: a populated cache whose tag matches the current timestamp
is served unchanged even though reopening the workbook would fail. -/
theorem c6_cache_hit_and_idempotence_witness :
    convert_excel_file (some 5) none 2024 (CacheState.mk [("1", "x")] 5) =
      ((CacheState.mk [("1", "x")] 5).sheets_cache, CacheState.mk [("1", "x")] 5) ∧
    convert_excel_file (some 5) none 2024
        (convert_excel_file (some 5) none 2024 (CacheState.mk [("1", "x")] 5)).2 =
      convert_excel_file (some 5) none 2024 (CacheState.mk [("1", "x")] 5) :=
  ⟨(c6_cache_hit_and_idempotence (some 5) none 2024 (CacheState.mk [("1", "x")] 5)).1
      5 rfl (by decide) rfl,
    (c6_cache_hit_and_idempotence (some 5) none 2024 (CacheState.mk [("1", "x")] 5)).2⟩

/-! ## Shared lemmas about the bounded grid window (C7) -/

lemma mem_range_list {a b r : Nat} : r ∈ range_list a b ↔ a ≤ r ∧ r ≤ b := by
  unfold range_list
  simp only [List.mem_map, List.mem_range]
  constructor
  · rintro ⟨i, hi, rfl⟩
    omega
  · rintro ⟨h1, h2⟩
    exact ⟨r - a, by omega, by omega⟩

lemma range_list_split {a m b : Nat} (h1 : a ≤ m + 1) (h2 : m ≤ b) :
    range_list a b = range_list a m ++ range_list (m + 1) b := by
  unfold range_list
  rw [show b + 1 - (m + 1) = b - m by omega,
    show b + 1 - a = (m + 1 - a) + (b - m) by omega, List.range_add, List.map_append,
    List.map_map]
  congr 1
  apply List.map_congr_left
  intro i _
  simp only [Function.comp_apply]
  omega

/-- Under the invariant that rows beyond `ws.max_row` have empty column-A
cells, the date-row scan may be taken over the full window rows 1..29. -/
lemma detect_date_rows_full (ws : Sheet)
    (hw : ∀ r : Nat, ws.max_row < r → (ws.cells r 1).value = CellValue.empty) :
    detect_date_rows ws = (range_list 1 29).filter (date_row_cell ws) := by
  unfold detect_date_rows
  rcases le_or_lt 29 ws.max_row with h | h
  · rw [min_eq_left h]
  · rw [min_eq_right (by omega)]
    rw [range_list_split (a := 1) (m := ws.max_row) (b := 29) (by omega) (by omega),
      List.filter_append]
    have : (range_list (ws.max_row + 1) 29).filter (date_row_cell ws) = [] := by
      rw [List.filter_eq_nil_iff]
      intro r hr
      have hrb := mem_range_list.mp hr
      unfold date_row_cell
      rw [hw r (by omega)]
      simp
    rw [this, List.append_nil]

/-- The per-cell rendering only reads the cell at its own coordinate. -/
lemma render_cell_congr (A B : Sheet) (mdict : List (String × MergeInfo))
    (wd : Option (List Int)) (drs : List Nat) (r c : Nat)
    (hc : A.cells r c = B.cells r c) :
    render_cell A mdict wd drs r c = render_cell B mdict wd drs r c := by
  simp only [render_cell]
  rw [hc]

/-! ## C7: the rendered output depends only on the 29 × 20 window -/

/-- C7: two sheets with the same name, merge ranges and (openpyxl-valid)
used-range invariant, whose cells agree on rows 1..29 × columns 1..20,
render to identical markup; content outside the window (row 35, column 25,
...) never contributes. -/
theorem c7_window_only (A B : Sheet) (sheet_name : Option String) (year : Int)
    (hA : ∀ r : Nat, A.max_row < r → (A.cells r 1).value = CellValue.empty)
    (hB : ∀ r : Nat, B.max_row < r → (B.cells r 1).value = CellValue.empty)
    (hm : A.merged_ranges = B.merged_ranges)
    (hc : ∀ r c : Nat, 1 ≤ r → r ≤ 29 → 1 ≤ c → c ≤ 20 → A.cells r c = B.cells r c) :
    sheet_to_html A sheet_name year = sheet_to_html B sheet_name year := by
  have hdet : detect_date_rows A = detect_date_rows B := by
    rw [detect_date_rows_full A hA, detect_date_rows_full B hB]
    apply List.filter_congr
    intro r hr
    have hrb := mem_range_list.mp hr
    unfold date_row_cell
    rw [hc r 1 (by omega) (by omega) (by omega) (by omega)]
  unfold sheet_to_html sheet_to_html_list
  cases sheet_week_dates sheet_name year with
  | none => rfl
  | some wd =>
    simp only [Option.map_some]
    rw [hdet, hm]
    have hfm : (range_list 1 29).flatMap
        (render_row A (merged_cells_dict B.merged_ranges) wd (detect_date_rows B)) =
        (range_list 1 29).flatMap
        (render_row B (merged_cells_dict B.merged_ranges) wd (detect_date_rows B)) := by
      apply List.flatMap_congr
      intro r hr
      have hrb := mem_range_list.mp hr
      unfold render_row
      have hcells : (range_list 1 20).flatMap
          (render_cell A (merged_cells_dict B.merged_ranges) wd (detect_date_rows B) r) =
          (range_list 1 20).flatMap
          (render_cell B (merged_cells_dict B.merged_ranges) wd (detect_date_rows B) r) := by
        apply List.flatMap_congr
        intro c hcc
        have hcb := mem_range_list.mp hcc
        exact render_cell_congr A B _ wd _ r c
          (hc r c (by omega) (by omega) (by omega) (by omega))
      rw [hcells]
    rw [hfm]

/-- C7 witness: a sheet with text at row 35 renders identically to the
fully empty sheet. -/
theorem c7_window_only_witness :
    sheet_to_html emptySheet (some "planning") 2025 =
      sheet_to_html rowThirtyFiveSheet (some "planning") 2025 :=
  c7_window_only emptySheet rowThirtyFiveSheet (some "planning") 2025
    (fun _ _ => rfl)
    (fun r hr => by
      simp only [rowThirtyFiveSheet] at hr ⊢
      rw [if_neg (by omega)])
    rfl
    (fun r c h1 h2 h3 h4 => by
      simp only [emptySheet, rowThirtyFiveSheet]
      rw [if_neg (by omega)])

/-! ## Shared lemmas about the emitted row structure (C10) -/

/-- Every line a cell emits is a `<td>` line. -/
lemma render_cell_shape (ws : Sheet) (mdict : List (String × MergeInfo))
    (wd : Option (List Int)) (drs : List Nat) (r c : Nat) :
    ∀ s ∈ render_cell ws mdict wd drs r c,
      ∃ a b : String, s = "    <td" ++ a ++ ">" ++ b ++ "</td>" := by
  intro s hs
  unfold render_cell at hs
  split at hs
  · cases hs
  · rw [List.mem_singleton] at hs
    exact ⟨_, _, hs⟩

/-- A `<td>` line is never one of the row-delimiter lines. -/
lemma td_line_ne (a b : String) :
    ("    <td" ++ a ++ ">" ++ b ++ "</td>" ≠ "  <tr>") ∧
    ("    <td" ++ a ++ ">" ++ b ++ "</td>" ≠ "  </tr>") := by
  constructor <;>
    · intro h
      have hd := congrArg String.data h
      simp only [String.data_append] at hd
      simp only [List.cons_append, List.nil_append, List.append_assoc] at hd
      simp at hd

/-- Each rendered grid row contains exactly one `<tr>` and one `</tr>`. -/
lemma render_row_count (ws : Sheet) (mdict : List (String × MergeInfo))
    (wd : Option (List Int)) (drs : List Nat) (r : Nat) :
    (render_row ws mdict wd drs r).count "  <tr>" = 1 ∧
    (render_row ws mdict wd drs r).count "  </tr>" = 1 := by
  have htd : ∀ x : String, x = "  <tr>" ∨ x = "  </tr>" →
      ((range_list 1 20).flatMap (render_cell ws mdict wd drs r)).count x = 0 := by
    intro x hx
    rw [List.count_eq_zero]
    intro hmem
    rw [List.mem_flatMap] at hmem
    obtain ⟨c, _, hc⟩ := hmem
    obtain ⟨a, b, rfl⟩ := render_cell_shape ws mdict wd drs r c _ hc
    rcases hx with h | h
    · exact (td_line_ne a b).1 h
    · exact (td_line_ne a b).2 h
  unfold render_row
  constructor
  · have h0 := htd "  <tr>" (Or.inl rfl)
    simp [List.count_cons, List.count_append, h0]
  · have h0 := htd "  </tr>" (Or.inr rfl)
    simp [List.count_cons, List.count_append, h0]

/-! ## C10: the grid always renders 29 rows of up to 20 cells -/

/-- C10 counterexample: a sheet named by a huge digit string makes the
week-date computation raise (`OverflowError` escapes `sheet_to_html`), so
no rows at all are emitted for that input sheet. -/
theorem c10_counterexample :
    sheet_to_html emptySheet (some "999999999") 2025 = none := by decide

/-- C10 (amended): whenever `sheet_to_html` completes (every sheet whose
numeric name, if any, keeps the week inside the representable calendar),
the emitted line list contains exactly 29 `<tr>` and 29 `</tr>` markers —
independent of the sheet's content and used dimensions — and each grid
coordinate emits exactly one `<td>` line unless it is a skipped non-anchor
merged cell, which emits none. -/
theorem c10_always_29_rows (ws : Sheet) (sheet_name : Option String) (year : Int)
    (l : List String) (h : sheet_to_html_list ws sheet_name year = some l) :
    l.count "  <tr>" = 29 ∧ l.count "  </tr>" = 29 ∧
    (∀ (mdict : List (String × MergeInfo)) (wd : Option (List Int))
      (drs : List Nat) (r c : Nat),
      (render_cell ws mdict wd drs r c).length =
        if is_skipped mdict r c then 0 else 1) := by
  have hcell : ∀ (mdict : List (String × MergeInfo)) (wd : Option (List Int))
      (drs : List Nat) (r c : Nat),
      (render_cell ws mdict wd drs r c).length =
        if is_skipped mdict r c then 0 else 1 := by
    intro mdict wd drs r c
    unfold render_cell
    cases hsk : is_skipped mdict r c <;> simp [hsk]
  unfold sheet_to_html_list at h
  cases hwd : sheet_week_dates sheet_name year with
  | none => rw [hwd] at h; cases h
  | some wd =>
    rw [hwd] at h
    injection h with h
    subst h
    have hcount : ∀ x : String, x = "  <tr>" ∨ x = "  </tr>" →
        ((range_list 1 29).flatMap
          (render_row ws (merged_cells_dict ws.merged_ranges) wd
            (detect_date_rows ws))).count x = 29 := by
      intro x hx
      rw [List.count_flatMap]
      have hmap : (range_list 1 29).map
          (List.count x ∘ render_row ws (merged_cells_dict ws.merged_ranges) wd
            (detect_date_rows ws)) = (range_list 1 29).map (fun _ => 1) := by
        apply List.map_congr_left
        intro r _
        simp only [Function.comp_apply]
        rcases hx with rfl | rfl
        · exact (render_row_count ws _ wd _ r).1
        · exact (render_row_count ws _ wd _ r).2
      rw [hmap, List.map_const']
      rw [List.sum_replicate]
      rfl
    refine ⟨?_, ?_, hcell⟩
    · have h0 := hcount "  <tr>" (Or.inl rfl)
      simp [List.count_cons, List.count_append, h0]
    · have h0 := hcount "  </tr>" (Or.inr rfl)
      simp [List.count_cons, List.count_append, h0]

/-- C10 witness: the empty sheet still renders 29 rows. -/
theorem c10_always_29_rows_witness :
    sheet_to_html_list emptySheet none 2025 =
      some ((sheet_to_html_list emptySheet none 2025).getD []) ∧
    (((sheet_to_html_list emptySheet none 2025).getD []).count "  <tr>" = 29 ∧
     ((sheet_to_html_list emptySheet none 2025).getD []).count "  </tr>" = 29 ∧
     (∀ (mdict : List (String × MergeInfo)) (wd : Option (List Int))
       (drs : List Nat) (r c : Nat),
       (render_cell emptySheet mdict wd drs r c).length =
         if is_skipped mdict r c then 0 else 1)) :=
  ⟨by rfl, c10_always_29_rows emptySheet none 2025 _ (by rfl)⟩

/-! ## Shared lemmas for coordinate-string injectivity (C2) -/

lemma digitChar_toNat {d : Nat} (h : d < 10) : (digitChar d).toNat = 48 + d := by
  interval_cases d <;> decide

lemma upperChar_toNat {m : Nat} (h : m < 26) : (Char.ofNat (65 + m)).toNat = 65 + m := by
  interval_cases m <;> decide

lemma singleLetter_toNat {n : Nat} (h1 : 1 ≤ n) (h2 : n ≤ 26) :
    (Char.ofNat (64 + n)).toNat = 64 + n := by
  interval_cases n <;> decide

lemma natDigitsF_ne_nil : ∀ (fuel n : Nat), n < fuel → natDigitsF fuel n ≠ [] := by
  intro fuel
  cases fuel with
  | zero => intro n h; omega
  | succ f =>
    intro n _
    unfold natDigitsF
    split
    · simp
    · simp

lemma natDigitsF_chars : ∀ (fuel n : Nat), n < fuel →
    ∀ ch ∈ natDigitsF fuel n, 48 ≤ ch.toNat ∧ ch.toNat ≤ 57 := by
  intro fuel
  induction fuel with
  | zero => intro n h; omega
  | succ f ih =>
    intro n hn ch hch
    unfold natDigitsF at hch
    split at hch
    · rw [List.mem_singleton] at hch
      subst hch
      have := digitChar_toNat (by omega : n % 10 < 10)
      have h10 : n < 10 := by assumption
      rw [digitChar_toNat h10]
      omega
    · rw [List.mem_append] at hch
      rcases hch with hch | hch
      · exact ih (n / 10) (by omega) ch hch
      · rw [List.mem_singleton] at hch
        subst hch
        rw [digitChar_toNat (by omega : n % 10 < 10)]
        omega

lemma natDigitsF_inj : ∀ (f1 f2 m n : Nat), m < f1 → n < f2 →
    natDigitsF f1 m = natDigitsF f2 n → m = n := by
  intro f1
  induction f1 with
  | zero => intro f2 m n h; omega
  | succ f ih =>
    intro f2 m n hm hn h
    cases f2 with
    | zero => omega
    | succ g =>
      unfold natDigitsF at h
      by_cases h10m : m < 10 <;> by_cases h10n : n < 10
      · rw [if_pos h10m, if_pos h10n] at h
        injection h with h _
        have hm' := congrArg Char.toNat h
        rw [digitChar_toNat h10m, digitChar_toNat h10n] at hm'
        omega
      · rw [if_pos h10m, if_neg h10n] at h
        exfalso
        have hz : (natDigitsF g (n / 10)).length = 0 := by
          have hlen := congrArg List.length h
          simp only [List.length_append, List.length_singleton, List.length_cons] at hlen
          omega
        exact natDigitsF_ne_nil g (n / 10) (by omega) (List.length_eq_zero.mp hz)
      · rw [if_neg h10m, if_pos h10n] at h
        exfalso
        have hz : (natDigitsF f (m / 10)).length = 0 := by
          have hlen := congrArg List.length h
          simp only [List.length_append, List.length_singleton, List.length_cons] at hlen
          omega
        exact natDigitsF_ne_nil f (m / 10) (by omega) (List.length_eq_zero.mp hz)
      · rw [if_neg h10m, if_neg h10n] at h
        obtain ⟨h1, h2⟩ := List.append_inj' h (by simp)
        have hq := ih g (m / 10) (n / 10) (by omega) (by omega) h1
        injection h2 with h2
        have hm' := congrArg Char.toNat h2
        rw [digitChar_toNat (by omega : m % 10 < 10),
          digitChar_toNat (by omega : n % 10 < 10)] at hm'
        omega

lemma colLettersF_ne_nil : ∀ (fuel n : Nat), n < fuel → colLettersF fuel n ≠ [] := by
  intro fuel
  cases fuel with
  | zero => intro n h; omega
  | succ f =>
    intro n _
    unfold colLettersF
    split
    · simp
    · simp

lemma colLettersF_chars : ∀ (fuel n : Nat), 1 ≤ n → n < fuel →
    ∀ ch ∈ colLettersF fuel n, 65 ≤ ch.toNat ∧ ch.toNat ≤ 90 := by
  intro fuel
  induction fuel with
  | zero => intro n _ h; omega
  | succ f ih =>
    intro n hn1 hn ch hch
    unfold colLettersF at hch
    split at hch
    · rw [List.mem_singleton] at hch
      subst hch
      rw [singleLetter_toNat hn1 (by assumption)]
      omega
    · rw [List.mem_append] at hch
      rcases hch with hch | hch
      · have h27 : 27 ≤ n := by omega
        exact ih ((n - 1) / 26) (by omega) (by omega) ch hch
      · rw [List.mem_singleton] at hch
        subst hch
        rw [upperChar_toNat (by omega : (n - 1) % 26 < 26)]
        omega

lemma colLettersF_inj : ∀ (f1 f2 m n : Nat), 1 ≤ m → 1 ≤ n → m < f1 → n < f2 →
    colLettersF f1 m = colLettersF f2 n → m = n := by
  intro f1
  induction f1 with
  | zero => intro f2 m n _ _ h; omega
  | succ f ih =>
    intro f2 m n hm1 hn1 hm hn h
    cases f2 with
    | zero => omega
    | succ g =>
      unfold colLettersF at h
      by_cases h26m : m ≤ 26 <;> by_cases h26n : n ≤ 26
      · rw [if_pos h26m, if_pos h26n] at h
        injection h with h _
        have hm' := congrArg Char.toNat h
        rw [singleLetter_toNat hm1 h26m, singleLetter_toNat hn1 h26n] at hm'
        omega
      · rw [if_pos h26m, if_neg h26n] at h
        exfalso
        have hz : (colLettersF g ((n - 1) / 26)).length = 0 := by
          have hlen := congrArg List.length h
          simp only [List.length_append, List.length_singleton, List.length_cons] at hlen
          omega
        exact colLettersF_ne_nil g ((n - 1) / 26) (by omega) (List.length_eq_zero.mp hz)
      · rw [if_neg h26m, if_pos h26n] at h
        exfalso
        have hz : (colLettersF f ((m - 1) / 26)).length = 0 := by
          have hlen := congrArg List.length h
          simp only [List.length_append, List.length_singleton, List.length_cons] at hlen
          omega
        exact colLettersF_ne_nil f ((m - 1) / 26) (by omega) (List.length_eq_zero.mp hz)
      · rw [if_neg h26m, if_neg h26n] at h
        obtain ⟨h1, h2⟩ := List.append_inj' h (by simp)
        have hq := ih g ((m - 1) / 26) ((n - 1) / 26) (by omega) (by omega)
          (by omega) (by omega) h1
        injection h2 with h2
        have hm' := congrArg Char.toNat h2
        rw [upperChar_toNat (by omega : (m - 1) % 26 < 26),
          upperChar_toNat (by omega : (n - 1) % 26 < 26)] at hm'
        omega

lemma letters_digits_split :
    ∀ (a a' b b' : List Char),
      (∀ ch ∈ a, 65 ≤ ch.toNat ∧ ch.toNat ≤ 90) →
      (∀ ch ∈ a', 65 ≤ ch.toNat ∧ ch.toNat ≤ 90) →
      (∀ ch ∈ b, 48 ≤ ch.toNat ∧ ch.toNat ≤ 57) →
      (∀ ch ∈ b', 48 ≤ ch.toNat ∧ ch.toNat ≤ 57) →
      a ++ b = a' ++ b' → a = a' ∧ b = b' := by
  intro a
  induction a with
  | nil =>
    intro a' b b' _ ha' hb _ h
    cases a' with
    | nil => exact ⟨rfl, h⟩
    | cons x t =>
      exfalso
      rw [List.nil_append, List.cons_append] at h
      have hx1 := ha' x (List.mem_cons_self x t)
      have hx2 := hb x (by rw [h]; exact List.mem_cons_self x (t ++ b'))
      omega
  | cons x t ih =>
    intro a' b b' ha ha' hb hb' h
    cases a' with
    | nil =>
      exfalso
      rw [List.cons_append, List.nil_append] at h
      have hx1 := ha x (List.mem_cons_self x t)
      have hx2 := hb' x (by rw [← h]; exact List.mem_cons_self x (t ++ b))
      omega
    | cons x' t' =>
      rw [List.cons_append, List.cons_append] at h
      injection h with h1 h2
      obtain ⟨ht, hbb⟩ := ih t' b b'
        (fun ch hch => ha ch (List.mem_cons_of_mem x hch))
        (fun ch hch => ha' ch (List.mem_cons_of_mem x' hch))
        hb hb' h2
      exact ⟨by rw [h1, ht], hbb⟩

/-- The coordinate encoding `f"{get_column_letter(col)}{row}"` is
injective for real (1-based) columns. -/
lemma cellCoord_inj {r c rp cp : Nat} (hc : 1 ≤ c) (hcp : 1 ≤ cp)
    (h : cellCoord r c = cellCoord rp cp) : r = rp ∧ c = cp := by
  unfold cellCoord get_column_letter natRepr natDigits at h
  have hd := congrArg String.data h
  simp only [String.data_append] at hd
  obtain ⟨hl, hdg⟩ := letters_digits_split _ _ _ _
    (colLettersF_chars (c + 1) c hc (by omega))
    (colLettersF_chars (cp + 1) cp hcp (by omega))
    (natDigitsF_chars (r + 1) r (by omega))
    (natDigitsF_chars (rp + 1) rp (by omega))
    hd
  exact ⟨natDigitsF_inj _ _ _ _ (by omega) (by omega) hdg,
    colLettersF_inj _ _ _ _ hc hcp (by omega) (by omega) hl⟩

/-! ## Shared lemmas about the merged-cell dictionary (C2) -/

lemma dict_lookup_append (l1 l2 : List (String × MergeInfo)) (k : String) :
    dict_lookup (l1 ++ l2) k =
      match dict_lookup l2 k with
      | some v => some v
      | none => dict_lookup l1 k := by
  induction l1 with
  | nil =>
    rw [List.nil_append]
    cases dict_lookup l2 k with
    | none => rfl
    | some v => rfl
  | cons p rest ih =>
    rw [List.cons_append]
    show (match dict_lookup (rest ++ l2) k with
      | some v => some v
      | none => if p.1 = k then some p.2 else none) = _
    rw [ih]
    cases dict_lookup l2 k with
    | none => rfl
    | some v => rfl

/-- Lookup along one row block of a merge range. -/
lemma dict_lookup_row (row : Nat) (cols : List Nat) (g : Nat → Nat → MergeInfo)
    (hcols : ∀ x ∈ cols, 1 ≤ x) (r c : Nat) (hc : 1 ≤ c) :
    dict_lookup (cols.map fun col => (cellCoord row col, g row col)) (cellCoord r c) =
      if row = r ∧ c ∈ cols then some (g r c) else none := by
  induction cols with
  | nil =>
    show (none : Option MergeInfo) = _
    rw [if_neg]
    rintro ⟨_, hmem⟩
    cases hmem
  | cons col cs ih =>
    rw [List.map_cons]
    show (match dict_lookup (cs.map fun col => (cellCoord row col, g row col))
        (cellCoord r c) with
      | some v => some v
      | none => if cellCoord row col = cellCoord r c then some (g row col) else none) = _
    rw [ih (fun x hx => hcols x (List.mem_cons_of_mem col hx))]
    by_cases hin : row = r ∧ c ∈ cs
    · rw [if_pos hin]
      show some (g r c) = _
      rw [if_pos (⟨hin.1, List.mem_cons_of_mem col hin.2⟩ :
        row = r ∧ c ∈ col :: cs)]
    · rw [if_neg hin]
      show (if cellCoord row col = cellCoord r c then some (g row col) else none) = _
      by_cases hhd : cellCoord row col = cellCoord r c
      · obtain ⟨hr, hcc⟩ := cellCoord_inj (hcols col (List.mem_cons_self col cs)) hc hhd
        rw [if_pos hhd, if_pos (⟨hr, by rw [← hcc]; exact List.mem_cons_self col cs⟩ :
          row = r ∧ c ∈ col :: cs)]
        rw [hr, hcc]
      · rw [if_neg hhd, if_neg]
        rintro ⟨hr, hmem⟩
        rcases List.mem_cons.mp hmem with rfl | hmem
        · exact hhd (by rw [hr])
        · exact hin ⟨hr, hmem⟩

/-- Lookup in the full entry block of one merge range. -/
lemma merge_entries_lookup (mr : MergeRange) (hval : ValidRange mr)
    (r c : Nat) (hc : 1 ≤ c) :
    dict_lookup (merge_entries mr) (cellCoord r c) =
      if inRange mr r c then
        some ⟨mr.max_row - mr.min_row + 1, mr.max_col - mr.min_col + 1,
          decide (r = mr.min_row ∧ c = mr.min_col)⟩
      else none := by
  have hcols : ∀ x ∈ range_list mr.min_col mr.max_col, 1 ≤ x := by
    intro x hx
    have := mem_range_list.mp hx
    unfold ValidRange at hval
    omega
  unfold merge_entries
  have hrows : ∀ (rows : List Nat),
      dict_lookup (rows.flatMap fun row =>
        (range_list mr.min_col mr.max_col).map fun col =>
          (cellCoord row col,
            { rowspan := mr.max_row - mr.min_row + 1,
              colspan := mr.max_col - mr.min_col + 1,
              is_main := decide (row = mr.min_row ∧ col = mr.min_col) }))
        (cellCoord r c) =
      if r ∈ rows ∧ c ∈ range_list mr.min_col mr.max_col then
        some ⟨mr.max_row - mr.min_row + 1, mr.max_col - mr.min_col + 1,
          decide (r = mr.min_row ∧ c = mr.min_col)⟩
      else none := by
    intro rows
    induction rows with
    | nil =>
      show (none : Option MergeInfo) = _
      rw [if_neg]
      rintro ⟨hmem, _⟩
      cases hmem
    | cons row rest ih =>
      rw [List.flatMap_cons, dict_lookup_append, ih]
      by_cases hin : r ∈ rest ∧ c ∈ range_list mr.min_col mr.max_col
      · rw [if_pos hin]
        show some _ = _
        rw [if_pos (⟨List.mem_cons_of_mem row hin.1, hin.2⟩ :
          r ∈ row :: rest ∧ c ∈ range_list mr.min_col mr.max_col)]
      · rw [if_neg hin]
        rw [dict_lookup_row row (range_list mr.min_col mr.max_col)
          (fun row col => MergeInfo.mk (mr.max_row - mr.min_row + 1)
            (mr.max_col - mr.min_col + 1)
            (decide (row = mr.min_row ∧ col = mr.min_col)))
          hcols r c hc]
        by_cases hhd : row = r ∧ c ∈ range_list mr.min_col mr.max_col
        · rw [if_pos hhd]
          have hr := hhd.1
          subst hr
          rw [if_pos (⟨List.mem_cons_self row rest, hhd.2⟩ :
            row ∈ row :: rest ∧ c ∈ range_list mr.min_col mr.max_col)]
        · rw [if_neg hhd, if_neg]
          rintro ⟨hmem, hcc⟩
          rcases List.mem_cons.mp hmem with rfl | hmem
          · exact hhd ⟨rfl, hcc⟩
          · exact hin ⟨hmem, hcc⟩
  rw [hrows (range_list mr.min_row mr.max_row)]
  unfold inRange
  by_cases h : mr.min_row ≤ r ∧ r ≤ mr.max_row ∧ mr.min_col ≤ c ∧ c ≤ mr.max_col
  · rw [if_pos ⟨mem_range_list.mpr ⟨h.1, h.2.1⟩, mem_range_list.mpr ⟨h.2.2.1, h.2.2.2⟩⟩,
      if_pos h]
  · rw [if_neg, if_neg h]
    rintro ⟨h1, h2⟩
    have hb1 := mem_range_list.mp h1
    have hb2 := mem_range_list.mp h2
    exact h ⟨hb1.1, hb1.2, hb2.1, hb2.2⟩

/-- A coordinate inside no range of the list is absent from the dict. -/
lemma merged_cells_dict_lookup_none :
    ∀ (rs : List MergeRange), (∀ mr ∈ rs, ValidRange mr) →
    ∀ (r c : Nat), 1 ≤ c → (∀ mr ∈ rs, ¬inRange mr r c) →
    dict_lookup (merged_cells_dict rs) (cellCoord r c) = none := by
  intro rs
  induction rs with
  | nil => intro _ r c _ _; rfl
  | cons mr0 rest ih =>
    intro hval r c hc h
    unfold merged_cells_dict
    rw [List.flatMap_cons, dict_lookup_append]
    have hrest : dict_lookup (rest.flatMap merge_entries) (cellCoord r c) = none :=
      ih (fun m hm => hval m (List.mem_cons_of_mem mr0 hm)) r c hc
        (fun m hm => h m (List.mem_cons_of_mem mr0 hm))
    rw [hrest]
    rw [merge_entries_lookup mr0 (hval mr0 (List.mem_cons_self mr0 rest)) r c hc,
      if_neg (h mr0 (List.mem_cons_self mr0 rest))]

/-- Lookup in the full merged-cell dictionary of a sheet with
non-overlapping valid ranges. -/
lemma merged_cells_dict_lookup :
    ∀ (rs : List MergeRange), (∀ mr ∈ rs, ValidRange mr) →
    rs.Pairwise rangesDisjoint →
    ∀ mr, mr ∈ rs → ∀ (r c : Nat), inRange mr r c →
    dict_lookup (merged_cells_dict rs) (cellCoord r c) =
      some ⟨mr.max_row - mr.min_row + 1, mr.max_col - mr.min_col + 1,
        decide (r = mr.min_row ∧ c = mr.min_col)⟩ := by
  intro rs
  induction rs with
  | nil => intro _ _ mr hmr; cases hmr
  | cons mr0 rest ih =>
    intro hval hdis mr hmr r c hin
    have hc : 1 ≤ c := by
      have := hval mr hmr
      unfold ValidRange at this
      unfold inRange at hin
      omega
    unfold merged_cells_dict
    rw [List.flatMap_cons, dict_lookup_append]
    rcases List.mem_cons.mp hmr with rfl | hmem
    · have hnone : dict_lookup (rest.flatMap merge_entries) (cellCoord r c) = none := by
        apply merged_cells_dict_lookup_none rest
          (fun m hm => hval m (List.mem_cons_of_mem mr hm)) r c hc
        intro m hm hinm
        exact (List.pairwise_cons.mp hdis).1 m hm r c ⟨hin, hinm⟩
      rw [hnone]
      rw [merge_entries_lookup mr (hval mr (List.mem_cons_self mr rest)) r c hc,
        if_pos hin]
    · have hsome := ih (fun m hm => hval m (List.mem_cons_of_mem mr0 hm))
        (List.pairwise_cons.mp hdis).2 mr hmem r c hin
      unfold merged_cells_dict at hsome
      rw [hsome]

/-! ## C2: merge resolution marks exactly one anchor and skips the rest -/

/-- C2: for every merge range of a sheet (valid, pairwise non-overlapping
ranges), every coordinate inside the range is mapped to rowspan
`max_row − min_row + 1` and colspan `max_col − min_col + 1`, with
`is_main` true exactly at `(min_row, min_col)`; every non-anchor
coordinate of the range emits no cell in the rendered output. -/
theorem c2_merge_resolution (rs : List MergeRange)
    (hval : ∀ mr ∈ rs, ValidRange mr) (hdis : rs.Pairwise rangesDisjoint)
    (mr : MergeRange) (hmr : mr ∈ rs) (r c : Nat) (hin : inRange mr r c) :
    dict_lookup (merged_cells_dict rs) (cellCoord r c) =
      some ⟨mr.max_row - mr.min_row + 1, mr.max_col - mr.min_col + 1,
        decide (r = mr.min_row ∧ c = mr.min_col)⟩ ∧
    (¬(r = mr.min_row ∧ c = mr.min_col) →
      ∀ (ws : Sheet) (wd : Option (List Int)) (drs : List Nat),
        render_cell ws (merged_cells_dict rs) wd drs r c = []) := by
  have hl := merged_cells_dict_lookup rs hval hdis mr hmr r c hin
  refine ⟨hl, ?_⟩
  intro hna ws wd drs
  unfold render_cell is_skipped
  rw [hl, decide_eq_false hna]
  rfl

/-- C2 witness: the merge spanning rows 3–4, columns 2–3. -/
theorem c2_merge_resolution_witness :
    dict_lookup (merged_cells_dict [MergeRange.mk 3 4 2 3]) (cellCoord 3 2) =
      some (MergeInfo.mk 2 2 true) ∧
    dict_lookup (merged_cells_dict [MergeRange.mk 3 4 2 3]) (cellCoord 3 3) =
      some (MergeInfo.mk 2 2 false) ∧
    dict_lookup (merged_cells_dict [MergeRange.mk 3 4 2 3]) (cellCoord 4 2) =
      some (MergeInfo.mk 2 2 false) ∧
    dict_lookup (merged_cells_dict [MergeRange.mk 3 4 2 3]) (cellCoord 4 3) =
      some (MergeInfo.mk 2 2 false) ∧
    render_cell emptySheet (merged_cells_dict [MergeRange.mk 3 4 2 3]) none [] 3 3 = [] ∧
    render_cell emptySheet (merged_cells_dict [MergeRange.mk 3 4 2 3]) none [] 4 2 = [] ∧
    render_cell emptySheet (merged_cells_dict [MergeRange.mk 3 4 2 3]) none [] 4 3 = [] :=
  ⟨(c2_merge_resolution [MergeRange.mk 3 4 2 3] (by decide) (by simp)
      (MergeRange.mk 3 4 2 3) (by simp) 3 2 (by decide)).1,
   (c2_merge_resolution [MergeRange.mk 3 4 2 3] (by decide) (by simp)
      (MergeRange.mk 3 4 2 3) (by simp) 3 3 (by decide)).1,
   (c2_merge_resolution [MergeRange.mk 3 4 2 3] (by decide) (by simp)
      (MergeRange.mk 3 4 2 3) (by simp) 4 2 (by decide)).1,
   (c2_merge_resolution [MergeRange.mk 3 4 2 3] (by decide) (by simp)
      (MergeRange.mk 3 4 2 3) (by simp) 4 3 (by decide)).1,
   (c2_merge_resolution [MergeRange.mk 3 4 2 3] (by decide) (by simp)
      (MergeRange.mk 3 4 2 3) (by simp) 3 3 (by decide)).2 (by decide) emptySheet none [],
   (c2_merge_resolution [MergeRange.mk 3 4 2 3] (by decide) (by simp)
      (MergeRange.mk 3 4 2 3) (by simp) 4 2 (by decide)).2 (by decide) emptySheet none [],
   (c2_merge_resolution [MergeRange.mk 3 4 2 3] (by decide) (by simp)
      (MergeRange.mk 3 4 2 3) (by simp) 4 3 (by decide)).2 (by decide) emptySheet none []⟩
